import Mathlib

/-
Verification of the LevelDB chain-reading client
(mythril/ethereum/interface/leveldb/client.py) against its design
specification.

The embedding is byte-level: Python `bytes` values are lists of naturals
(each entry a byte value), the LevelDB store is an association list from
keys to values whose `get` returns the most recently `put` binding, and
Python exceptions are modelled with `Except`.  External collaborators
(the RLP codec for headers, the keccak hash, the state trie) are modelled
by explicit small codecs or taken as parameters, exactly at the boundary
where the source delegates to them.
-/

set_option autoImplicit false

namespace Mythril

/-- Python `bytes`: a list of byte values. -/
abbrev Bytes := List Nat

/-- The LevelDB store, as seen through `ETH_DB.get`/`put`: an association
list, most recent binding first. -/
abbrev DB := List (Bytes × Bytes)

/-- `plyvel`-style point read: the value of the most recent binding for the
key, or `none` when the key is absent. -/
def DB.get (db : DB) (key : Bytes) : Option Bytes :=
  (db.find? fun p => p.1 == key).map fun p => p.2

/-- `put` installs a new binding that shadows older ones. -/
def DB.put (db : DB) (key value : Bytes) : DB :=
  (key, value) :: db

/-- Python truthiness of a `db.get` result: `None` and `b""` are falsy,
every non-empty bytes value is truthy. -/
def truthyBytes : Option Bytes → Bool
  | none => false
  | some b => !b.isEmpty

/-- Failure modes of the client, standing for the Python exceptions the
code can raise.  `notFound` is the designated lookup-failure kind named by
the specification's error taxonomy; the source never raises it, which is
what the theorems below establish where relevant. -/
inductive Err where
  | typeError
  | decodeError
  | notFound
  | outOfFuel
  deriving DecidableEq

/- ------------------------------------------------------------------
   Key schema (client.py lines 21-33): literal byte prefixes, b"h", b"b",
   b"n", b"H", b"r", b"AM", b"LastBlock", b"accountMapping".
   ------------------------------------------------------------------ -/

/-- b"h" -/
def header_prefix : Bytes := [104]

/-- b"b" -/
def body_prefix : Bytes := [98]

/-- b"n" -/
def num_suffix : Bytes := [110]

/-- b"H" -/
def block_hash_prefix : Bytes := [72]

/-- b"r" -/
def block_receipts_prefix : Bytes := [114]

/-- b"LastBlock" -/
def head_header_key : Bytes := [76, 97, 115, 116, 66, 108, 111, 99, 107]

/-- b"AM" -/
def address_prefix : Bytes := [65, 77]

/-- b"accountMapping" -/
def address_mapping_head_key : Bytes :=
  [97, 99, 99, 111, 117, 110, 116, 77, 97, 112, 112, 105, 110, 103]

/- ------------------------------------------------------------------
   Fixed-width block-number encoding (client.py lines 36-38):
   utils.zpad(utils.int_to_big_endian(number), 8).
   ------------------------------------------------------------------ -/

/-- Little-endian base-256 digits of `n`, least significant first, with an
explicit fuel so the definition is structural (the fuel `n` always
suffices, since the digit count of `n` is at most `n` for `n ≥ 1`). -/
def leDigitsAux : Nat → Nat → Bytes
  | 0, _ => []
  | _ + 1, 0 => []
  | fuel + 1, n + 1 => (n + 1) % 256 :: leDigitsAux fuel ((n + 1) / 256)

/-- `utils.int_to_big_endian`: minimal big-endian byte encoding of a
non-negative integer (the empty byte string for 0). -/
def int_to_big_endian (v : Nat) : Bytes :=
  (leDigitsAux v v).reverse

/-- `utils.zpad(x, l)`: left-pad `x` with zero bytes to length `l`
(never truncates). -/
def zpad (x : Bytes) (l : Nat) : Bytes :=
  List.replicate (l - x.length) 0 ++ x

/-- client.py line 36: format a block number as uint64 big endian. -/
def _format_block_number (number : Nat) : Bytes :=
  zpad (int_to_big_endian number) 8

/-- Decoding of a big-endian byte string back to a natural number. -/
def big_endian_to_int (bs : Bytes) : Nat :=
  bs.foldl (fun acc d => acc * 256 + d) 0

/-- Value of a little-endian digit list. -/
def leVal : Bytes → Nat
  | [] => 0
  | d :: ds => d + 256 * leVal ds

theorem leVal_leDigitsAux : ∀ fuel n : Nat, n ≤ fuel → leVal (leDigitsAux fuel n) = n := by
  intro fuel
  induction fuel with
  | zero =>
    intro n hn
    interval_cases n
    simp [leDigitsAux, leVal]
  | succ f ih =>
    intro n hn
    match n with
    | 0 => simp [leDigitsAux, leVal]
    | m + 1 =>
      have hdiv : (m + 1) / 256 ≤ f := by
        have h1 : (m + 1) / 256 < m + 1 := Nat.div_lt_self (Nat.succ_pos m) (by norm_num)
        omega
      simp only [leDigitsAux, leVal, ih _ hdiv]
      omega

theorem leDigitsAux_length_le : ∀ fuel k n : Nat, n < 256 ^ k →
    (leDigitsAux fuel n).length ≤ k := by
  intro fuel
  induction fuel with
  | zero => intro k n _; simp [leDigitsAux]
  | succ f ih =>
    intro k n hn
    match n with
    | 0 => simp [leDigitsAux]
    | m + 1 =>
      match k with
      | 0 => simp at hn
      | j + 1 =>
        have hdiv : (m + 1) / 256 < 256 ^ j := by
          rw [Nat.div_lt_iff_lt_mul (by norm_num : 0 < 256)]
          calc m + 1 < 256 ^ (j + 1) := hn
            _ = 256 ^ j * 256 := by rw [pow_succ]
        simpa [leDigitsAux] using ih j ((m + 1) / 256) hdiv

theorem big_endian_to_int_reverse : ∀ l : Bytes,
    big_endian_to_int l.reverse = leVal l := by
  intro l
  induction l with
  | nil => rfl
  | cons d ds ih =>
    simp only [big_endian_to_int, List.reverse_cons, List.foldl_append, List.foldl_cons,
      List.foldl_nil, leVal]
    simp only [big_endian_to_int] at ih
    rw [ih]
    ring

theorem big_endian_to_int_replicate_zero (m : Nat) (l : Bytes) :
    big_endian_to_int (List.replicate m 0 ++ l) = big_endian_to_int l := by
  induction m with
  | zero => simp
  | succ k ih =>
    simpa [big_endian_to_int, List.replicate_succ] using ih

theorem int_to_big_endian_length_le (n : Nat) (h : n < 2 ^ 64) :
    (int_to_big_endian n).length ≤ 8 := by
  have h256 : n < 256 ^ 8 := by
    calc n < 2 ^ 64 := h
      _ = 256 ^ 8 := by norm_num
  simpa [int_to_big_endian] using leDigitsAux_length_le n 8 n h256

theorem format_block_number_length (n : Nat) (h : n < 2 ^ 64) :
    (_format_block_number n).length = 8 := by
  have hlen := int_to_big_endian_length_le n h
  simp [_format_block_number, zpad]
  omega

theorem big_endian_to_int_format (n : Nat) :
    big_endian_to_int (_format_block_number n) = n := by
  have h1 : big_endian_to_int (int_to_big_endian n) = n := by
    simpa [int_to_big_endian, big_endian_to_int_reverse] using
      leVal_leDigitsAux n n (Nat.le_refl n)
  simpa [_format_block_number, zpad, big_endian_to_int_replicate_zero] using h1

/-- Claim C4: for every block number `n < 2^64`, `_format_block_number`
produces exactly 8 bytes and decoding them as a big-endian unsigned
integer returns `n` (`decode(encode(n)) = n`). -/
theorem format_block_number_roundtrip_8_bytes (n : Nat) (h : n < 2 ^ 64) :
    (_format_block_number n).length = 8 ∧
    big_endian_to_int (_format_block_number n) = n :=
  ⟨format_block_number_length n h, big_endian_to_int_format n⟩

/-- Witness for C4 at the concrete block number 300. -/
theorem format_block_number_roundtrip_witness :
    (_format_block_number 300).length = 8 ∧
    big_endian_to_int (_format_block_number 300) = 300 :=
  format_block_number_roundtrip_8_bytes 300 (by norm_num)

/- ------------------------------------------------------------------
   Store keys as the source builds them (raw concatenation of prefix,
   fixed-width number and/or hash fields).
   ------------------------------------------------------------------ -/

/-- client.py line 85: canonical-hash key, header_prefix + num + num_suffix. -/
def hash_key (number : Nat) : Bytes :=
  header_prefix ++ _format_block_number number ++ num_suffix

/-- client.py line 124: header key, header_prefix + num + hash. -/
def header_key (num block_hash : Bytes) : Bytes :=
  header_prefix ++ num ++ block_hash

/-- client.py line 281: body key, body_prefix + num + hash. -/
def body_key (num block_hash : Bytes) : Bytes :=
  body_prefix ++ num ++ block_hash

/-- client.py line 154: receipts key, block_receipts_prefix + num + hash. -/
def receipts_key (num block_hash : Bytes) : Bytes :=
  block_receipts_prefix ++ num ++ block_hash

/-- client.py line 114: hash-to-number key, block_hash_prefix + hash. -/
def number_key (block_hash : Bytes) : Bytes :=
  block_hash_prefix ++ block_hash

/-- client.py lines 136 and 192: index-entry key, address_prefix + hash. -/
def address_key (h : Bytes) : Bytes :=
  address_prefix ++ h

/- ------------------------------------------------------------------
   Block headers.  The source hands header bytes to the external RLP
   codec (rlp.decode(..., sedes=BlockHeader)); only the parent hash and
   the state root of the decoded header are inspected by this module, so
   the header model carries exactly those fields and a concrete
   injective byte codec standing in for RLP.  `prevhash = none` models
   the none sentinel the source's walk-back loop tests for
   (`self.head_block_header.prevhash is not None`).
   ------------------------------------------------------------------ -/

structure BlockHeader where
  prevhash : Option Bytes
  state_root : Bytes
  deriving DecidableEq

/-- Serialized form of a header, standing in for its RLP encoding. -/
def encodeHeader : BlockHeader → Bytes
  | ⟨none, root⟩ => 0 :: root
  | ⟨some p, root⟩ => 1 :: p.length :: (p ++ root)

/-- Header decoding, standing in for `rlp.decode` with the BlockHeader
sedes; `none` models a decode failure (malformed bytes). -/
def decodeHeader : Bytes → Option BlockHeader
  | 0 :: rest => some ⟨none, rest⟩
  | 1 :: n :: rest =>
    if n ≤ rest.length then some ⟨some (rest.take n), rest.drop n⟩ else none
  | _ => none

/- ------------------------------------------------------------------
   LevelDBReader operations (client.py lines 46-157).  The reader's two
   cache attributes become explicit fields; the db-level operations below
   take the store directly.  Arguments that can be Python `None` (values
   coming out of `db.get`) have type `Option Bytes`; using `None` where
   bytes are required (key concatenation) raises a TypeError, modelled as
   `Err.typeError`; `rlp.decode` on `None` or malformed bytes raises,
   modelled as `Err.decodeError`.
   ------------------------------------------------------------------ -/

/-- client.py lines 78-86: `_get_block_hash`, canonical hash for a block
number (possibly `None`). -/
def _get_block_hash (db : DB) (number : Nat) : Option Bytes :=
  DB.get db (hash_key number)

/-- client.py lines 108-115: `_get_block_number`, reverse hash→number
lookup.  A `None` hash makes the key concatenation raise. -/
def _get_block_number (db : DB) : Option Bytes → Except Err (Option Bytes)
  | none => .error .typeError
  | some block_hash => .ok (DB.get db (number_key block_hash))

/-- client.py lines 117-128: `_get_block_header`, fetch and decode the
header stored under header_prefix + num + hash.  A `None` hash or number
makes the key concatenation raise; an absent key or malformed value makes
the decode raise. -/
def _get_block_header (db : DB) : Option Bytes → Option Bytes → Except Err BlockHeader
  | none, _ => .error .typeError
  | some _, none => .error .typeError
  | some block_hash, some num =>
    match DB.get db (header_key num block_hash) with
    | none => .error .decodeError
    | some data =>
      match decodeHeader data with
      | none => .error .decodeError
      | some header => .ok header

/-- The walk-back loop of `_get_head_block` (client.py lines 98-104):
while the current header's state root is not a truthy key in the store
and its parent hash is not the none sentinel, step to the parent header.
`fuel` bounds the number of steps (the Python loop has no bound and can
diverge on a cyclic store); the theorems quantify over sufficient fuel. -/
def headLoop (db : DB) : Nat → BlockHeader → Except Err BlockHeader
  | 0, _ => .error .outOfFuel
  | fuel + 1, header =>
    if truthyBytes (DB.get db header.state_root) then .ok header
    else
      match header.prevhash with
      | none => .ok header
      | some block_hash =>
        match _get_block_number db (some block_hash) with
        | .error e => .error e
        | .ok num =>
          match _get_block_header db (some block_hash) num with
          | .error e => .error e
          | .ok next => headLoop db fuel next

/-- The head-fetch prefix of `_get_head_block` (client.py lines 94-96):
read the b"LastBlock" pointer, resolve it to a number, fetch the header.
This is the "recorded head header" the claims speak about. -/
def recordedHead (db : DB) : Except Err BlockHeader :=
  let block_hash := DB.get db head_header_key
  match _get_block_number db block_hash with
  | .error e => .error e
  | .ok num => _get_block_header db block_hash num

/-- client.py lines 88-106, cache aside: fetch the recorded head and
walk back to a header with a truthy state root. -/
def _get_head_block_uncached (db : DB) (fuel : Nat) : Except Err BlockHeader :=
  match recordedHead db with
  | .error e => .error e
  | .ok header => headLoop db fuel header

/-- One successful parent step as the loop body performs it: parent hash
present, hash→number lookup succeeds, header fetch and decode succeed. -/
def parentHeader (db : DB) (header : BlockHeader) : Option BlockHeader :=
  match header.prevhash with
  | none => none
  | some block_hash =>
    match DB.get db (number_key block_hash) with
    | none => none
    | some num => (DB.get db (header_key num block_hash)).bind decodeHeader

/-- `k`-fold parent step: the header `k` links up the parent chain, when
every lookup on the way succeeds. -/
def iterParent (db : DB) : Nat → BlockHeader → Option BlockHeader
  | 0, header => some header
  | k + 1, header => (parentHeader db header).bind (iterParent db k)

theorem iterParent_succ_of_parent (db : DB) (k : Nat) (h0 h1 : BlockHeader)
    (hpar : parentHeader db h0 = some h1) :
    iterParent db (k + 1) h0 = iterParent db k h1 := by
  simp [iterParent, hpar]

/-- When the current header's state root is not resolvable and its parent
resolves, one loop iteration moves to the parent header. -/
theorem headLoop_step (db : DB) (fuel : Nat) (h0 h1 : BlockHeader)
    (hfalse : truthyBytes (DB.get db h0.state_root) = false)
    (hpar : parentHeader db h0 = some h1) :
    headLoop db (fuel + 1) h0 = headLoop db fuel h1 := by
  rcases hprev : h0.prevhash with _ | bh
  · simp [parentHeader, hprev] at hpar
  · rcases hnum : DB.get db (number_key bh) with _ | num
    · simp [parentHeader, hprev, hnum] at hpar
    · rcases hdata : DB.get db (header_key num bh) with _ | data
      · simp [parentHeader, hprev, hnum, hdata] at hpar
      · simp only [parentHeader, hprev, hnum, hdata, Option.some_bind] at hpar
        simp [headLoop, hfalse, hprev, _get_block_number, hnum, _get_block_header,
          hdata, hpar]

/-- The walk-back loop reaches the first header on the parent chain whose
state root is resolvable, given enough fuel. -/
theorem headLoop_reaches (db : DB) :
    ∀ k fuel : Nat, ∀ h0 hk : BlockHeader,
      iterParent db k h0 = some hk →
      (∀ j, j < k → ∀ hj, iterParent db j h0 = some hj →
        truthyBytes (DB.get db hj.state_root) = false) →
      truthyBytes (DB.get db hk.state_root) = true →
      k < fuel →
      headLoop db fuel h0 = .ok hk := by
  intro k
  induction k with
  | zero =>
    intro fuel h0 hk hreach _ htruthy hfuel
    simp only [iterParent, Option.some.injEq] at hreach
    subst hreach
    obtain ⟨f, rfl⟩ : ∃ f, fuel = f + 1 := ⟨fuel - 1, by omega⟩
    simp [headLoop, htruthy]
  | succ k ih =>
    intro fuel h0 hk hreach hmin htruthy hfuel
    have h0false : truthyBytes (DB.get db h0.state_root) = false :=
      hmin 0 (Nat.succ_pos k) h0 rfl
    rcases hpar : parentHeader db h0 with _ | h1
    · simp [iterParent, hpar] at hreach
    · have hreach1 : iterParent db k h1 = some hk := by
        simpa only [iterParent, hpar, Option.some_bind] using hreach
      obtain ⟨f, rfl⟩ : ∃ f, fuel = f + 1 := ⟨fuel - 1, by omega⟩
      rw [headLoop_step db f h0 h1 h0false hpar]
      refine ih f h1 hk hreach1 ?_ htruthy (by omega)
      intro j hj hj1 hiter
      exact hmin (j + 1) (by omega) hj1
        ((iterParent_succ_of_parent db j h0 h1 hpar).trans hiter)

/-- When no header on the parent chain has a resolvable state root, the
walk-back loop runs to the chain-end header (the one whose parent hash is
the none sentinel) and returns it. -/
theorem headLoop_exhausts (db : DB) :
    ∀ k fuel : Nat, ∀ h0 hk : BlockHeader,
      iterParent db k h0 = some hk →
      (∀ j, j ≤ k → ∀ hj, iterParent db j h0 = some hj →
        truthyBytes (DB.get db hj.state_root) = false) →
      hk.prevhash = none →
      k < fuel →
      headLoop db fuel h0 = .ok hk := by
  intro k
  induction k with
  | zero =>
    intro fuel h0 hk hreach hall hend hfuel
    simp only [iterParent, Option.some.injEq] at hreach
    subst hreach
    have h0false : truthyBytes (DB.get db h0.state_root) = false :=
      hall 0 (Nat.le_refl 0) h0 rfl
    obtain ⟨f, rfl⟩ : ∃ f, fuel = f + 1 := ⟨fuel - 1, by omega⟩
    simp [headLoop, h0false, hend]
  | succ k ih =>
    intro fuel h0 hk hreach hall hend hfuel
    have h0false : truthyBytes (DB.get db h0.state_root) = false :=
      hall 0 (Nat.zero_le (k + 1)) h0 rfl
    rcases hpar : parentHeader db h0 with _ | h1
    · simp [iterParent, hpar] at hreach
    · have hreach1 : iterParent db k h1 = some hk := by
        simpa only [iterParent, hpar, Option.some_bind] using hreach
      obtain ⟨f, rfl⟩ : ∃ f, fuel = f + 1 := ⟨fuel - 1, by omega⟩
      rw [headLoop_step db f h0 h1 h0false hpar]
      refine ih f h1 hk hreach1 ?_ hend (by omega)
      intro j hj hj1 hiter
      exact hall (j + 1) (by omega) hj1
        ((iterParent_succ_of_parent db j h0 h1 hpar).trans hiter)

/- ------------------------------------------------------------------
   The reader instance with its two caches, and the derived state view.
   ------------------------------------------------------------------ -/

/-- Modelled from the spec: the `State` type constructed at client.py
line 65 lives in mythril/ethereum/interface/leveldb/state.py, which is
not among the sources; §6 of the spec describes it as "a StateView type
constructed from (store, stateRoot)", so it is modelled as exactly that
pair. -/
structure State where
  db : DB
  root : Bytes
  deriving DecidableEq

/-- client.py lines 46-56: a reader over a store with its two
per-instance caches (`self.head_block_header`, `self.head_state`). -/
structure LevelDBReader where
  db : DB
  head_block_header : Option BlockHeader
  head_state : Option State
  deriving DecidableEq

/-- client.py lines 88-106: `_get_head_block` with its per-instance
cache.  The mutation of `self.head_block_header` becomes an updated
reader returned next to the header. -/
def LevelDBReader._get_head_block (r : LevelDBReader) (fuel : Nat) :
    Except Err (BlockHeader × LevelDBReader) :=
  match r.head_block_header with
  | some header => .ok (header, r)
  | none =>
    match _get_head_block_uncached r.db fuel with
    | .error e => .error e
    | .ok header => .ok (header, { r with head_block_header := some header })

/-- client.py lines 58-66: `_get_head_state` with its per-instance cache;
on a miss it resolves the head block (through that cache) and builds
`State(self.db, root)`. -/
def LevelDBReader._get_head_state (r : LevelDBReader) (fuel : Nat) :
    Except Err (State × LevelDBReader) :=
  match r.head_state with
  | some s => .ok (s, r)
  | none =>
    match LevelDBReader._get_head_block r fuel with
    | .error e => .error e
    | .ok (header, r1) =>
      .ok (⟨r1.db, header.state_root⟩,
           { r1 with head_state := some ⟨r1.db, header.state_root⟩ })

/- ------------------------------------------------------------------
   Claims C1 and C2: head resolution on stores whose recorded head has an
   unresolvable state root.
   ------------------------------------------------------------------ -/

/-- Claim C1, amended: on a fresh reader whose recorded head header has
an unresolvable state root, if some header on the parent chain has a
resolvable state root (with all links on the way readable), then head
resolution returns the nearest such ancestor, which is not the recorded
head.  (The un-amended claim is refuted by
`resolveHead_can_return_recorded_head`: when no ancestor qualifies and
the chain ends in the none parent sentinel, the recorded head itself is
returned.) -/
theorem resolveHead_returns_nearest_resolvable_ancestor
    (db : DB) (fuel k : Nat) (h0 hk : BlockHeader)
    (hfetch : recordedHead db = .ok h0)
    (habsent : truthyBytes (DB.get db h0.state_root) = false)
    (hreach : iterParent db k h0 = some hk)
    (hres : truthyBytes (DB.get db hk.state_root) = true)
    (hnear : ∀ j, j < k → ∀ hj, iterParent db j h0 = some hj →
      truthyBytes (DB.get db hj.state_root) = false)
    (hfuel : k < fuel) :
    LevelDBReader._get_head_block ⟨db, none, none⟩ fuel =
      .ok (hk, ⟨db, some hk, none⟩) ∧ hk ≠ h0 := by
  have hloop := headLoop_reaches db k fuel h0 hk hreach hnear hres hfuel
  constructor
  · simp [LevelDBReader._get_head_block, _get_head_block_uncached, hfetch, hloop]
  · intro heq
    rw [heq, habsent] at hres
    exact Bool.false_ne_true hres

/-- Claim C2, amended: when no header on the parent chain starting at the
recorded head has a resolvable state root and the chain ends in a header
whose parent hash is the none sentinel, head resolution does not fail: it
returns that chain-end header.  (No `NoConsistentHead` error exists in
the code; the un-amended claim is refuted by
`resolveHead_exhausted_chain_no_error`.) -/
theorem resolveHead_exhausted_chain_returns_chain_end
    (db : DB) (fuel k : Nat) (h0 hk : BlockHeader)
    (hfetch : recordedHead db = .ok h0)
    (hall : ∀ j, j ≤ k → ∀ hj, iterParent db j h0 = some hj →
      truthyBytes (DB.get db hj.state_root) = false)
    (hreach : iterParent db k h0 = some hk)
    (hend : hk.prevhash = none)
    (hfuel : k < fuel) :
    LevelDBReader._get_head_block ⟨db, none, none⟩ fuel =
      .ok (hk, ⟨db, some hk, none⟩) := by
  have hloop := headLoop_exhausts db k fuel h0 hk hreach hall hend hfuel
  simp [LevelDBReader._get_head_block, _get_head_block_uncached, hfetch, hloop]

/-- A store whose recorded head header has an absent state root and the
none parent sentinel: one header under hash [170], number encoding
[0,...,1], state root key [9] absent from the store. -/
def exOrphanDB : DB :=
  [(head_header_key, [170]),
   (number_key [170], [0, 0, 0, 0, 0, 0, 0, 1]),
   (header_key [0, 0, 0, 0, 0, 0, 0, 1] [170], encodeHeader ⟨none, [9]⟩)]

/-- The header recorded as head in `exOrphanDB`. -/
def exChainEndHeader : BlockHeader := ⟨none, [9]⟩

/-- Counterexample to C1 as stated: on `exOrphanDB` the recorded head's
state root is absent from the store, yet `_get_head_block` returns the
recorded head itself (no ancestor has a resolvable root and the parent
hash is the none sentinel), contradicting "never returns the recorded
head itself". -/
theorem resolveHead_can_return_recorded_head :
    recordedHead exOrphanDB = .ok exChainEndHeader ∧
    DB.get exOrphanDB exChainEndHeader.state_root = none ∧
    LevelDBReader._get_head_block ⟨exOrphanDB, none, none⟩ 5 =
      .ok (exChainEndHeader, ⟨exOrphanDB, some exChainEndHeader, none⟩) :=
  ⟨rfl, rfl, rfl⟩

/-- Counterexample to C2 as stated: on `exOrphanDB` no header on the
parent chain has a resolvable state root, yet head resolution succeeds
with the chain-end header instead of failing with any error. -/
theorem resolveHead_exhausted_chain_no_error :
    truthyBytes (DB.get exOrphanDB exChainEndHeader.state_root) = false ∧
    exChainEndHeader.prevhash = none ∧
    _get_head_block_uncached exOrphanDB 5 = .ok exChainEndHeader :=
  ⟨rfl, rfl, rfl⟩

/-- A two-header store: the recorded head (hash [170]) has absent state
root [9] and parent [171]; the parent header (hash [171]) has state root
[7], present with value [1]. -/
def exWalkDB : DB :=
  [(head_header_key, [170]),
   (number_key [170], [0, 0, 0, 0, 0, 0, 0, 2]),
   (header_key [0, 0, 0, 0, 0, 0, 0, 2] [170], encodeHeader ⟨some [171], [9]⟩),
   (number_key [171], [0, 0, 0, 0, 0, 0, 0, 1]),
   (header_key [0, 0, 0, 0, 0, 0, 0, 1] [171], encodeHeader ⟨none, [7]⟩),
   ([7], [1])]

/-- The stale recorded head of `exWalkDB`. -/
def exStaleHeadHeader : BlockHeader := ⟨some [171], [9]⟩

/-- The ancestor of the recorded head of `exWalkDB` whose state root is
resolvable. -/
def exAncestorHeader : BlockHeader := ⟨none, [7]⟩

/-- Witness for the amended C1 on `exWalkDB`: the walk returns the parent
header, not the recorded head. -/
theorem resolveHead_nearest_ancestor_witness :
    LevelDBReader._get_head_block ⟨exWalkDB, none, none⟩ 2 =
      .ok (exAncestorHeader, ⟨exWalkDB, some exAncestorHeader, none⟩) ∧
    exAncestorHeader ≠ exStaleHeadHeader :=
  resolveHead_returns_nearest_resolvable_ancestor exWalkDB 2 1
    exStaleHeadHeader exAncestorHeader rfl rfl rfl rfl
    (by
      intro j hj hjh hiter
      have hj0 : j = 0 := by omega
      subst hj0
      simp only [iterParent, Option.some.injEq] at hiter
      subst hiter
      rfl)
    (by omega)

/-- Witness for the amended C2 on `exOrphanDB`: with the whole chain
unresolvable, resolution succeeds with the chain-end header. -/
theorem resolveHead_exhausted_chain_witness :
    LevelDBReader._get_head_block ⟨exOrphanDB, none, none⟩ 1 =
      .ok (exChainEndHeader, ⟨exOrphanDB, some exChainEndHeader, none⟩) :=
  resolveHead_exhausted_chain_returns_chain_end exOrphanDB 1 0
    exChainEndHeader exChainEndHeader rfl
    (by
      intro j hj hjh hiter
      have hj0 : j = 0 := by omega
      subst hj0
      simp only [iterParent, Option.some.injEq] at hiter
      subst hiter
      rfl)
    rfl rfl (by omega)

/- ------------------------------------------------------------------
   Claim C7: per-instance caching of the resolved head and state view.
   ------------------------------------------------------------------ -/

/-- Claim C7: after the first successful `_get_head_block` (resp.
`_get_head_state`) on a reader instance, the result is cached in the
instance and every later call returns exactly that value — for any fuel
and against any replacement store, so neither the head pointer nor the
ancestor walk nor the state view is ever re-computed. -/
theorem head_resolution_cached_per_instance (r : LevelDBReader) (fuel : Nat) :
    (∀ header r', LevelDBReader._get_head_block r fuel = .ok (header, r') →
      r'.head_block_header = some header ∧
      ∀ fuel' db', LevelDBReader._get_head_block { r' with db := db' } fuel' =
        .ok (header, { r' with db := db' })) ∧
    (∀ s r', LevelDBReader._get_head_state r fuel = .ok (s, r') →
      r'.head_state = some s ∧
      ∀ fuel' db', LevelDBReader._get_head_state { r' with db := db' } fuel' =
        .ok (s, { r' with db := db' })) := by
  constructor
  · intro header r' hcall
    have hcache : r'.head_block_header = some header := by
      rcases hc : r.head_block_header with _ | h
      · rw [LevelDBReader._get_head_block, hc] at hcall
        rcases huc : _get_head_block_uncached r.db fuel with e | h
        · rw [huc] at hcall; cases hcall
        · rw [huc] at hcall
          simp only [Except.ok.injEq, Prod.mk.injEq] at hcall
          rw [← hcall.2, ← hcall.1]
      · rw [LevelDBReader._get_head_block, hc] at hcall
        simp only [Except.ok.injEq, Prod.mk.injEq] at hcall
        rw [← hcall.2, hc, hcall.1]
    refine ⟨hcache, ?_⟩
    intro fuel' db'
    rw [LevelDBReader._get_head_block]
    simp [hcache]
  · intro s r' hcall
    have hcache : r'.head_state = some s := by
      rcases hc : r.head_state with _ | s0
      · rw [LevelDBReader._get_head_state, hc] at hcall
        rcases hb : LevelDBReader._get_head_block r fuel with e | hr1
        · rw [hb] at hcall; cases hcall
        · rw [hb] at hcall
          simp only [Except.ok.injEq, Prod.mk.injEq] at hcall
          rw [← hcall.2, ← hcall.1]
      · rw [LevelDBReader._get_head_state, hc] at hcall
        simp only [Except.ok.injEq, Prod.mk.injEq] at hcall
        rw [← hcall.2, hc, hcall.1]
    refine ⟨hcache, ?_⟩
    intro fuel' db'
    rw [LevelDBReader._get_head_state]
    simp [hcache]

/-- A store on which head resolution succeeds immediately: the recorded
head's state root [7] is present with a truthy value. -/
def exLiveDB : DB :=
  [(head_header_key, [170]),
   (number_key [170], [0, 0, 0, 0, 0, 0, 0, 1]),
   (header_key [0, 0, 0, 0, 0, 0, 0, 1] [170], encodeHeader ⟨none, [7]⟩),
   ([7], [1])]

/-- The resolvable head of `exLiveDB`. -/
def exLiveHeader : BlockHeader := ⟨none, [7]⟩

/-- A fresh reader over `exLiveDB`. -/
def exLiveReader : LevelDBReader := ⟨exLiveDB, none, none⟩

/-- The reader after a first successful `_get_head_block`. -/
def exCachedReader : LevelDBReader := ⟨exLiveDB, some exLiveHeader, none⟩

/-- The state view derived from the resolved head of `exLiveDB`. -/
def exLiveState : State := ⟨exLiveDB, [7]⟩

/-- The reader after a first successful `_get_head_state`. -/
def exStateReader : LevelDBReader :=
  ⟨exLiveDB, some exLiveHeader, some exLiveState⟩

/-- Witness for C7: the cached header and state are served unchanged on
repeat calls, with zero fuel and an emptied store. -/
theorem head_resolution_cached_witness :
    LevelDBReader._get_head_block { exCachedReader with db := [] } 0 =
      .ok (exLiveHeader, { exCachedReader with db := [] }) ∧
    LevelDBReader._get_head_state { exStateReader with db := [] } 0 =
      .ok (exLiveState, { exStateReader with db := [] }) :=
  ⟨((head_resolution_cached_per_instance exLiveReader 1).1
      exLiveHeader exCachedReader rfl).2 0 [],
   ((head_resolution_cached_per_instance exLiveReader 1).2
      exLiveState exStateReader rfl).2 0 []⟩

/- ------------------------------------------------------------------
   Claim C8: eth_getBlockHeaderByNumber on a number with no recorded
   canonical hash.
   ------------------------------------------------------------------ -/

/-- client.py lines 263-271: `eth_getBlockHeaderByNumber` resolves the
canonical hash for the number (possibly `None`) and fetches the header
under header_prefix + num + hash. -/
def eth_getBlockHeaderByNumber (db : DB) (number : Nat) : Except Err BlockHeader :=
  let block_hash := _get_block_hash db number
  let block_number := _format_block_number number
  _get_block_header db block_hash (some block_number)

/-- Claim C8, amended: when the store records no canonical hash for `n`,
`eth_getBlockHeaderByNumber` does fail — but with the TypeError raised by
concatenating the absent (`None`) hash into the header key, not with a
designated `NotFound` error (the code has no such error; see
`getHeaderByNumber_missing_hash_not_notFound`). -/
theorem getHeaderByNumber_missing_hash_type_error (db : DB) (number : Nat)
    (habsent : DB.get db (hash_key number) = none) :
    eth_getBlockHeaderByNumber db number = .error .typeError := by
  simp [eth_getBlockHeaderByNumber, _get_block_hash, habsent, _get_block_header]

/-- Counterexample to C8 as stated: on the empty store no canonical hash
is recorded for block 0, and the call fails with `typeError`, not with
the `notFound` error kind the claim names. -/
theorem getHeaderByNumber_missing_hash_not_notFound :
    _get_block_hash ([] : DB) 0 = none ∧
    eth_getBlockHeaderByNumber ([] : DB) 0 = .error .typeError ∧
    eth_getBlockHeaderByNumber ([] : DB) 0 ≠ .error .notFound := by
  refine ⟨rfl, rfl, ?_⟩
  intro h
  rw [show eth_getBlockHeaderByNumber ([] : DB) 0 = .error .typeError from rfl] at h
  exact Err.noConfusion (Except.error.inj h)

/-- Witness for the amended C8 at block number 7 on the empty store. -/
theorem getHeaderByNumber_missing_hash_witness :
    eth_getBlockHeaderByNumber ([] : DB) 7 = .error .typeError :=
  getHeaderByNumber_missing_hash_type_error [] 7 rfl

/- ------------------------------------------------------------------
   Claim C9: byte layout of every key the schema constructs.
   ------------------------------------------------------------------ -/

/-- Claim C9: every store key is the raw concatenation, with no
delimiters or length prefixes, of its 1-2 byte ASCII literal prefix with
the 8-byte big-endian number and/or the 32-byte hash: the canonical-hash
key is 'h' + num + 'n' (10 bytes), the header key 'h' + num + hash (41),
the body key 'b' + num + hash (41), the receipts key 'r' + num + hash
(41), the hash-to-number key 'H' + hash (33), and the index-entry key
'A' 'M' + hash (34). -/
theorem key_schema_layout (n : Nat) (block_hash : Bytes)
    (hn : n < 2 ^ 64) (hh : block_hash.length = 32) :
    [(hash_key n).length,
     (header_key (_format_block_number n) block_hash).length,
     (body_key (_format_block_number n) block_hash).length,
     (receipts_key (_format_block_number n) block_hash).length,
     (number_key block_hash).length,
     (address_key block_hash).length] = [10, 41, 41, 41, 33, 34] ∧
    header_prefix = ['h'.toNat] ∧
    body_prefix = ['b'.toNat] ∧
    num_suffix = ['n'.toNat] ∧
    block_hash_prefix = ['H'.toNat] ∧
    block_receipts_prefix = ['r'.toNat] ∧
    address_prefix = ['A'.toNat, 'M'.toNat] ∧
    hash_key n = header_prefix ++ _format_block_number n ++ num_suffix ∧
    header_key (_format_block_number n) block_hash =
      header_prefix ++ _format_block_number n ++ block_hash ∧
    body_key (_format_block_number n) block_hash =
      body_prefix ++ _format_block_number n ++ block_hash ∧
    receipts_key (_format_block_number n) block_hash =
      block_receipts_prefix ++ _format_block_number n ++ block_hash ∧
    number_key block_hash = block_hash_prefix ++ block_hash ∧
    address_key block_hash = address_prefix ++ block_hash := by
  have hf := format_block_number_length n hn
  refine ⟨?_, rfl, rfl, rfl, rfl, rfl, rfl, rfl, rfl, rfl, rfl, rfl, rfl⟩
  simp [hash_key, header_key, body_key, receipts_key, number_key, address_key,
    header_prefix, body_prefix, num_suffix, block_hash_prefix,
    block_receipts_prefix, address_prefix, hf, hh]

/-- Witness for C9 at block number 1 and a 32-byte zero hash. -/
theorem key_schema_layout_witness :
    [(hash_key 1).length,
     (header_key (_format_block_number 1) (List.replicate 32 0)).length,
     (body_key (_format_block_number 1) (List.replicate 32 0)).length,
     (receipts_key (_format_block_number 1) (List.replicate 32 0)).length,
     (number_key (List.replicate 32 0)).length,
     (address_key (List.replicate 32 0)).length] = [10, 41, 41, 41, 33, 34] :=
  (key_schema_layout 1 (List.replicate 32 0) (by norm_num) (by simp)).1

/- ------------------------------------------------------------------
   LevelDBWriter (client.py lines 160-193) and claims C3 and C5.
   ------------------------------------------------------------------ -/

/-- An in-memory write batch: the staged puts, in staging order.
Modelled from the spec for the batch semantics: `ETH_DB.write_batch`
lives in eth_db.py, which is not among the sources; §4.3/§6 of the spec
give its contract — `begin` opens an empty batch, `put` stages a write,
`commit` makes all staged writes visible together, none before. -/
abbrev Batch := List (Bytes × Bytes)

/-- client.py lines 160-169: the writer over a store, with its single
batch attribute (`self.wb`, `None` until `_start_writing`). -/
structure LevelDBWriter where
  db : DB
  wb : Option Batch
  deriving DecidableEq

theorem DB.get_put_same (db : DB) (k v : Bytes) :
    DB.get (DB.put db k v) k = some v := by
  simp [DB.get, DB.put]

/-- client.py lines 171-177: `_set_last_indexed_number` writes the
progress marker directly to the store with `self.db.put` — not into the
open batch. -/
def _set_last_indexed_number (w : LevelDBWriter) (number : Nat) : LevelDBWriter :=
  { w with db := DB.put w.db address_mapping_head_key (_format_block_number number) }

/-- client.py lines 179-181: `_start_writing` unconditionally binds a
fresh empty batch (`self.wb = self.db.write_batch()`); there is no check
of a batch already being open. -/
def _start_writing (w : LevelDBWriter) : LevelDBWriter :=
  { w with wb := some [] }

/-- client.py lines 183-185: `_commit_batch` applies every staged put to
the store (`self.wb.write()`); with no batch open the `None` dereference
raises, modelled as `typeError`. -/
def _commit_batch (w : LevelDBWriter) : Except Err LevelDBWriter :=
  match w.wb with
  | none => .error .typeError
  | some b => .ok { w with db := b.foldl (fun d p => DB.put d p.1 p.2) w.db }

/-- client.py lines 187-193: `_store_account_address` stages one put of
address_prefix + sha3(address) ↦ address into the open batch; with no
batch open the `None` dereference raises.  `sha3` (`utils.sha3`, an
external collaborator) is a parameter. -/
def _store_account_address (sha3 : Bytes → Bytes) (w : LevelDBWriter)
    (address : Bytes) : Except Err LevelDBWriter :=
  match w.wb with
  | none => .error .typeError
  | some b => .ok { w with wb := some (b ++ [(address_key (sha3 address), address)]) }

/-- Claim C3, amended: the per-block index entries and the progress
marker are not staged in one batch: `_store_account_address` only stages
into the open batch and leaves the committed store untouched, while
`_set_last_indexed_number` writes the marker straight to the store,
immediately visible, whatever batch is open.  A marker ahead of
uncommitted entries is therefore reachable (`torn_state_reachable`). -/
theorem marker_write_bypasses_open_batch
    (w w' : LevelDBWriter) (number : Nat) (sha3 : Bytes → Bytes) (address : Bytes)
    (hstore : _store_account_address sha3 w address = .ok w') :
    DB.get (_set_last_indexed_number w number).db address_mapping_head_key =
      some (_format_block_number number) ∧
    (_set_last_indexed_number w number).wb = w.wb ∧
    w'.db = w.db := by
  refine ⟨?_, rfl, ?_⟩
  · simp [_set_last_indexed_number, DB.get_put_same]
  · rcases hwb : w.wb with _ | b
    · simp only [_store_account_address, hwb] at hstore
      exact Except.noConfusion hstore
    · simp only [_store_account_address, hwb, Except.ok.injEq] at hstore
      rw [← hstore]

/-- Counterexample to C3 as stated: start a batch, stage one index entry,
update the progress marker, and stop before any commit (a crash point).
The resulting store holds the marker for block 7 while the entry staged
for it is absent — the torn state the claim rules out. -/
theorem torn_state_reachable :
    _store_account_address (fun b => b) (_start_writing ⟨[], none⟩) [5] =
      .ok ⟨[], some [(address_key [5], [5])]⟩ ∧
    DB.get (_set_last_indexed_number ⟨[], some [(address_key [5], [5])]⟩ 7).db
      address_mapping_head_key = some (_format_block_number 7) ∧
    DB.get (_set_last_indexed_number ⟨[], some [(address_key [5], [5])]⟩ 7).db
      (address_key [5]) = none :=
  ⟨rfl, rfl, rfl⟩

/-- Witness for the amended C3 on a writer with an open empty batch. -/
theorem marker_write_bypasses_open_batch_witness :
    DB.get (_set_last_indexed_number ⟨[], some []⟩ 3).db address_mapping_head_key =
      some (_format_block_number 3) ∧
    (_set_last_indexed_number (⟨[], some []⟩ : LevelDBWriter) 3).wb = some [] ∧
    (⟨[], some [(address_key [5], [5])]⟩ : LevelDBWriter).db = ([] : DB) :=
  marker_write_bypasses_open_batch ⟨[], some []⟩
    ⟨[], some [(address_key [5], [5])]⟩ 3 (fun b => b) [5] rfl

/-- Claim C5, amended: calling `_start_writing` with a batch already open
does not fail — the code has no `InvalidState` check; it silently
replaces the open batch with a fresh empty one, so the staged writes of
the prior batch are discarded (an immediate commit writes nothing).  The
writer does hold at most one open batch at a time. -/
theorem start_writing_replaces_batch_silently (w : LevelDBWriter) (b : Batch)
    (hopen : w.wb = some b) :
    (_start_writing w).wb = some [] ∧
    (_start_writing w).db = w.db ∧
    _commit_batch (_start_writing w) = .ok (_start_writing w) := by
  refine ⟨rfl, rfl, ?_⟩
  simp [_commit_batch, _start_writing]

/-- Counterexample to C5 as stated: on a writer whose open batch holds
one staged entry, a second `_start_writing` yields a writer with a fresh
empty batch — no `InvalidState` failure occurs — and the staged entry is
gone: committing right away writes nothing to the store. -/
theorem start_writing_twice_no_error :
    _start_writing (⟨[], some [(address_key [5], [5])]⟩ : LevelDBWriter) =
      ⟨[], some []⟩ ∧
    _commit_batch (_start_writing (⟨[], some [(address_key [5], [5])]⟩ : LevelDBWriter)) =
      .ok ⟨[], some []⟩ :=
  ⟨rfl, rfl⟩

/-- Witness for the amended C5 on a writer with one staged write. -/
theorem start_writing_replaces_batch_witness :
    (_start_writing (⟨[], some [([1], [2])]⟩ : LevelDBWriter)).wb = some [] ∧
    (_start_writing (⟨[], some [([1], [2])]⟩ : LevelDBWriter)).db = ([] : DB) ∧
    _commit_batch (_start_writing (⟨[], some [([1], [2])]⟩ : LevelDBWriter)) =
      .ok (_start_writing (⟨[], some [([1], [2])]⟩ : LevelDBWriter)) :=
  start_writing_replaces_batch_silently ⟨[], some [([1], [2])]⟩ [([1], [2])] rfl

/- ------------------------------------------------------------------
   Contract enumeration and search (client.py lines 209-249), claims C6
   and C10.
   ------------------------------------------------------------------ -/

/-- Hex digit of a nibble, lowercase ('0' = 48, 'a' = 97). -/
def hexChar (n : Nat) : Nat := if n < 10 then 48 + n else 87 + n

/-- `utils.encode_hex`: two lowercase hex digits per byte. -/
def encode_hex (v : Bytes) : Bytes :=
  v.flatMap fun b => [hexChar (b / 16), hexChar (b % 16)]

/-- client.py lines 41-43: `_encode_hex`, "0x" (bytes 48, 120) followed
by the hex digits. -/
def _encode_hex (v : Bytes) : Bytes := [48, 120] ++ encode_hex v

/-- mythril.ethereum.evmcontract.EVMContract, reduced to what the search
uses of it: the hex code it is constructed from (client.py line 214).
The bytecode pattern-matching it offers is external to this module and
enters below as the caller's predicate. -/
structure EVMContract where
  code : Bytes
  deriving DecidableEq

/-- An account as the state-trie collaborator enumerates it
(`get_all_accounts`): address (hash), balance, optional code. -/
structure Account where
  address : Bytes
  balance : Nat
  code : Option Bytes
  deriving DecidableEq

/-- client.py lines 209-216: `get_contracts` yields, for exactly the
accounts whose code is not None, the contract over the hex-encoded code
together with the account's address and balance. -/
def get_contracts : List Account → List (EVMContract × Bytes × Nat)
  | [] => []
  | account :: rest =>
    match account.code with
    | some code =>
      (⟨ _encode_hex code⟩, account.address, account.balance) :: get_contracts rest
    | none => get_contracts rest

/-- client.py lines 218-249: the loop of `search` over the enumerated
contracts.  `resolve` stands for the account index's
`get_contract_by_hash` (external collaborator), with `none` standing for
its AddressNotFoundError, which the loop catches and answers with
`continue`.  The returned list is the sequence of callback invocations. -/
def searchLoop (expression : EVMContract → Bool) (resolve : Bytes → Option Bytes) :
    List (EVMContract × Bytes × Nat) → List (EVMContract × Bytes × Nat)
  | [] => []
  | (contract, address_hash, balance) :: rest =>
    if expression contract then
      match resolve address_hash with
      | some address =>
        (contract, _encode_hex address, balance) :: searchLoop expression resolve rest
      | none => searchLoop expression resolve rest
    else searchLoop expression resolve rest

/-- client.py line 218: `search` runs the loop over `get_contracts`. -/
def search (expression : EVMContract → Bool) (resolve : Bytes → Option Bytes)
    (accounts : List Account) : List (EVMContract × Bytes × Nat) :=
  searchLoop expression resolve (get_contracts accounts)

/-- Claim C6: the search never aborts on an unresolvable match: a
matching contract whose address hash does not resolve is skipped and the
loop continues with the remaining contracts, and the callback sequence is
exactly the matching contracts whose address resolves, each paired with
its hex-encoded resolved address. -/
theorem search_skips_unresolvable_matches (expression : EVMContract → Bool)
    (resolve : Bytes → Option Bytes) :
    (∀ contracts, searchLoop expression resolve contracts =
      contracts.filterMap fun t =>
        if expression t.1 then
          (resolve t.2.1).map fun address => (t.1, _encode_hex address, t.2.2)
        else none) ∧
    (∀ contract address_hash balance rest, expression contract = true →
      resolve address_hash = none →
      searchLoop expression resolve ((contract, address_hash, balance) :: rest) =
        searchLoop expression resolve rest) := by
  constructor
  · intro contracts
    induction contracts with
    | nil => rfl
    | cons t rest ih =>
      obtain ⟨contract, address_hash, balance⟩ := t
      by_cases hm : expression contract
      · rcases hr : resolve address_hash with _ | address
        · simp [searchLoop, hm, hr, ih, List.filterMap_cons]
        · simp [searchLoop, hm, hr, ih, List.filterMap_cons]
      · simp [searchLoop, hm, ih, List.filterMap_cons]
  · intro contract address_hash balance rest hm hr
    simp [searchLoop, hm, hr]

/-- A predicate matching every contract (for the C6 witness). -/
def matchAll : EVMContract → Bool := fun _ => true

/-- An index resolver failing on every hash, i.e. raising
AddressNotFoundError everywhere (for the C6 witness). -/
def resolveNothing : Bytes → Option Bytes := fun _ => none

/-- Witness for C6: a matching but unresolvable contract is skipped and
the search continues with the rest of the list. -/
theorem search_skips_unresolvable_matches_witness :
    searchLoop matchAll resolveNothing [(⟨[1]⟩, [2], 3)] =
      searchLoop matchAll resolveNothing [] :=
  (search_skips_unresolvable_matches matchAll resolveNothing).2 ⟨[1]⟩ [2] 3 [] rfl rfl

/-- Claim C10: `get_contracts` yields a tuple for an account exactly when
the account's code is not None — it equals the filterMap dropping
codeless accounts — so every contract the search predicate is evaluated
against comes from an account with code. -/
theorem get_contracts_yields_iff_code_present (accounts : List Account) :
    get_contracts accounts = accounts.filterMap fun account =>
      account.code.map fun code =>
        (⟨ _encode_hex code⟩, account.address, account.balance) := by
  induction accounts with
  | nil => rfl
  | cons account rest ih =>
    rcases hc : account.code with _ | code
    · simp [get_contracts, hc, ih, List.filterMap_cons]
    · simp [get_contracts, hc, ih, List.filterMap_cons]

end Mythril
